import Mathlib

/-!
Shallow embedding of the archers-ui-library input components:
Button, the multi-line InputArea (TextAreaField) and the single-line
InputField (TextInputField), together with their validation rules and
the event-driven state updates performed by the components.

The React runtime is modelled as a deterministic state machine per
component instance: an event (content change, focus loss, change of the
externally supplied error object) updates the component state and emits
the calls made to the caller-supplied notifiers during the processing
of that event (handler calls plus the effect passes that follow the
re-render; an effect fires only when its dependency list changed).
-/

namespace ArchersUI

/-- Whitespace recognised by the JS `trim` and the `\s` regex class
(ASCII whitespace plus NBSP, BOM and the line/paragraph separators). -/
def isJsWhitespace (c : Char) : Bool :=
  c = ' ' || c = '\t' || c = '\n' || c = '\r' ||
  c = Char.ofNat 11 || c = Char.ofNat 12 ||
  c = Char.ofNat 0xA0 || c = Char.ofNat 0xFEFF ||
  c = Char.ofNat 0x2028 || c = Char.ofNat 0x2029

/-- JS `String.prototype.trim`: strip leading and trailing whitespace. -/
def jsTrim (s : String) : String :=
  String.mk (((s.toList.dropWhile isJsWhitespace).reverse.dropWhile isJsWhitespace).reverse)

def isAsciiLower (c : Char) : Bool := 'a' ≤ c && c ≤ 'z'

def isAsciiUpper (c : Char) : Bool := 'A' ≤ c && c ≤ 'Z'

def isAsciiLetter (c : Char) : Bool := isAsciiLower c || isAsciiUpper c

def isAsciiDigit (c : Char) : Bool := '0' ≤ c && c ≤ '9'

/-- Language of `^[a-zA-Z]+$` (the `alphabets` rule). -/
def alphabetsMatch (s : String) : Bool :=
  !s.toList.isEmpty && s.toList.all isAsciiLetter

/-- Character class `[a-zA-Z0-9#\-_ ]` of the `resource_name` rule. -/
def resourceNameChar (c : Char) : Bool :=
  isAsciiLetter c || isAsciiDigit c || c = '#' || c = '-' || c = '_' || c = ' '

/-- Language of `^[a-zA-Z0-9#\-_ ]+$` (the `resource_name` rule). -/
def resourceNameMatch (s : String) : Bool :=
  !s.toList.isEmpty && s.toList.all resourceNameChar

/-- Character class `[a-zA-Z0-9#\-_., ]` of the `description` rule. -/
def descriptionChar (c : Char) : Bool :=
  resourceNameChar c || c = '.' || c = ','

/-- Language of `^[a-zA-Z0-9#\-_., ]+$` (the InputArea `description` rule). -/
def descriptionMatch (s : String) : Bool :=
  !s.toList.isEmpty && s.toList.all descriptionChar

/-- Character class `[^\s@]` used by the email rule. -/
def emailChar (c : Char) : Bool :=
  !isJsWhitespace c && c ≠ '@'

/-- Whether the list contains a dot followed by at least one further
character, i.e. can be split as `p ++ dot :: q` with `q` non-empty. -/
def hasDotBeforeLast : List Char → Bool
  | [] => false
  | [_] => false
  | '.' :: _ :: _ => true
  | _ :: t => hasDotBeforeLast t

/-- Whether the list can be split as `p ++ dot :: q` with `p` and `q`
both non-empty (the `[^\s@]+\.[^\s@]+` part of the email rule, all
characters being checked separately). -/
def hasInteriorDot : List Char → Bool
  | [] => false
  | _ :: t => hasDotBeforeLast t

/-- Language of `^[^\s@]+@[^\s@]+\.[^\s@]+$` (the `email` rule): a
non-empty run of non-whitespace non-at characters, a single at sign,
then a run over the same class containing an interior dot. -/
def emailMatch (s : String) : Bool :=
  let l := s.toList
  let u := l.takeWhile (· ≠ '@')
  match l.dropWhile (· ≠ '@') with
  | [] => false
  | _ :: v =>
    !u.isEmpty && u.all emailChar && v.all emailChar && hasInteriorDot v

/-- The special-character class `[!@#$%^&*()_+]` of the password rule. -/
def passwordSpecial (c : Char) : Bool :=
  (['!', '@', '#', '$', '%', '^', '&', '*', '(', ')', '_', '+']).contains c

/-- Body character class `[a-zA-Z\d!@#$%^&*()_+]` of the password rule. -/
def passwordChar (c : Char) : Bool :=
  isAsciiLetter c || isAsciiDigit c || passwordSpecial c

/-- Language of the password rule: at least 10 characters over the body
class, with at least one lowercase letter, one uppercase letter, one
digit and one special character (the four lookaheads). -/
def passwordMatch (s : String) : Bool :=
  let l := s.toList
  decide (10 ≤ l.length) && l.all passwordChar &&
  l.any isAsciiLower && l.any isAsciiUpper &&
  l.any isAsciiDigit && l.any passwordSpecial

/-- Language of `^[a-zA-Z0-9\s-]*$` (the dead `title` rule of the
InputField rule table; no component kind reaches it). -/
def titleMatch (s : String) : Bool :=
  s.toList.all (fun c => isAsciiLetter c || isAsciiDigit c || isJsWhitespace c || c = '-')

/-- Language of `^[+-]?\d+(\.\d+)?$` (the integer-or-decimal pattern
inspected by the InputField change handler for kind `number`). -/
def numberMatch (s : String) : Bool :=
  let l := s.toList
  let l1 := match l with
    | '+' :: t => t
    | '-' :: t => t
    | t => t
  let intPart := l1.takeWhile isAsciiDigit
  let rest := l1.dropWhile isAsciiDigit
  !intPart.isEmpty &&
    (match rest with
     | [] => true
     | '.' :: frac => !frac.isEmpty && frac.all isAsciiDigit
     | _ => false)

/-- One entry of a component's validation-rule table: the regex (as a
decidable language test) together with the fixed error message. -/
structure ValidationRule where
  test : String → Bool
  message : String

/-- The composite requirement message shared by the `password` and
`passwordVisible` rules. -/
def passwordMessage : String :=
  "Must be at least 10 characters long. Include at least one lowercase letter, one uppercase letter, one number, and one special character (!@#$%^&*()_+)."

/-- The `validationRules` record of InputField's `validateInput`,
keyed by the `type` string. -/
def inputFieldRules : String → Option ValidationRule
  | "alphabets" => some ⟨alphabetsMatch, "Only Alphabets allowed!"⟩
  | "resource_name" => some ⟨resourceNameMatch, "Only Alphabets, numbers and (#, _, -) allowed!"⟩
  | "email" => some ⟨emailMatch, "Invalid email format."⟩
  | "passwordVisible" => some ⟨passwordMatch, passwordMessage⟩
  | "password" => some ⟨passwordMatch, passwordMessage⟩
  | "title" => some ⟨titleMatch, " should not contain special characters."⟩
  | _ => none

/-- The `validationRules` record of InputArea's `validateInput`. -/
def inputAreaRules : String → Option ValidationRule
  | "description" => some ⟨descriptionMatch, "Only Alphabets, numbers, and (#, _, -, .) allowed!"⟩
  | _ => none

/-- The `type` union of InputFieldProps. -/
inductive InputType
  | alphabets
  | resource_name
  | email
  | password
  | passwordVisible
  | file
  | number
deriving DecidableEq, Repr

/-- The string value of an InputType, used as key into the rule table. -/
def InputType.toKey : InputType → String
  | .alphabets => "alphabets"
  | .resource_name => "resource_name"
  | .email => "email"
  | .password => "password"
  | .passwordVisible => "passwordVisible"
  | .file => "file"
  | .number => "number"

/-- Truthiness of `!value?.toString()?.trim()`: the value is absent or
trims to the empty string. -/
def valueTrimEmpty : Option String → Bool
  | none => true
  | some s => jsTrim s == ""

/-- Truthiness of `value?.toString().length`: the value is present and
non-empty. -/
def valueHasLength : Option String → Bool
  | none => false
  | some s => s.length != 0

/-- The pure content of InputArea's `validateInput`: the `(isValid,
errorMessage)` pair it stores (its boolean result equals the first
component; its inline notifier call passes that same boolean). -/
def validateAreaCompute (required : Bool) (value : String) : Bool × String :=
  if (jsTrim value == "") && required then
    (false, "Field is required.")
  else
    match inputAreaRules "description" with
    | some r =>
      if (jsTrim value != "") && !r.test value then (false, r.message)
      else (true, "")
    | none => (true, "")

/-- The pure content of InputField's `validateInput`: the `(isValid,
errorMessage)` pair it stores. The required check runs first, then the
rule lookup keyed by the kind; a kind without a rule validates any
value. -/
def validateInputCompute (t : InputType) (required : Bool) (label : String)
    (value : Option String) : Bool × String :=
  if valueTrimEmpty value && required then
    (false, label ++ " is required.")
  else
    match inputFieldRules t.toKey with
    | some r =>
      if valueHasLength value && !r.test (value.getD "") then (false, r.message)
      else (true, "")
    | none => (true, "")

/-- The externally supplied `errorObject` prop of InputField. -/
structure ErrorObject where
  error : Bool
  message : String
deriving DecidableEq, Repr

/-- Per-instance configuration of InputArea that the validation and
event handling read (the remaining props are display-only). -/
structure AreaProps where
  required : Bool
deriving DecidableEq, Repr

/-- Runtime state of an InputArea instance together with the
caller-owned controlled value (the caller is modelled as the catalog
story: it stores every value it is notified of and feeds it back). -/
structure AreaState where
  isValid : Bool
  errorMessage : String
  value : String
  characterCount : Nat
deriving DecidableEq, Repr

/-- User/host events an InputArea instance processes after mount. -/
inductive AreaEvent
  | change (v : String)
  | blur
deriving DecidableEq, Repr

/-- Notifier calls emitted while processing one InputArea event:
values passed to `onChange` and booleans passed to
`onValidationChange` (made only when those props are supplied). -/
structure AreaOut where
  changeCalls : List String
  validationCalls : List Bool
deriving DecidableEq, Repr

/-- Mounting an InputArea: state initialised valid/empty-message, the
character count from the initial value, and the mount run of the
`[isValid]` effect notifying the initial (true) validity. -/
def mountArea (v₀ : String) : AreaState × AreaOut :=
  (⟨true, "", v₀, v₀.length⟩, ⟨[], [true]⟩)

/-- One InputArea event. A change runs the textarea `onChange` wrapper:
`onChange` is called for an empty new value, then `validateInput` runs
on the new value (storing its result and notifying it inline) and its
boolean result gates a second `onChange` call; the caller updates the
controlled value whenever `onChange` fired. A blur runs `validateInput`
on the current value. After the handler, the `[isValid]` effect fires
exactly when `isValid` changed, notifying the new value. -/
def stepArea (p : AreaProps) (s : AreaState) : AreaEvent → AreaState × AreaOut
  | .change v =>
    let res := validateAreaCompute p.required v
    let calls := (if v = "" then [v] else []) ++ (if res.1 then [v] else [])
    let value2 := if calls.isEmpty then s.value else v
    (⟨res.1, res.2, value2, value2.length⟩,
     ⟨calls, [res.1] ++ (if res.1 ≠ s.isValid then [res.1] else [])⟩)
  | .blur =>
    let res := validateAreaCompute p.required s.value
    (⟨res.1, res.2, s.value, s.characterCount⟩,
     ⟨[], [res.1] ++ (if res.1 ≠ s.isValid then [res.1] else [])⟩)

/-- InputArea state after mounting on `v₀` and processing `evs`. -/
def runArea (p : AreaProps) (v₀ : String) (evs : List AreaEvent) : AreaState :=
  evs.foldl (fun s e => (stepArea p s e).1) (mountArea v₀).1

/-- Per-instance configuration of InputField read by validation and
event handling. -/
structure FieldProps where
  type : InputType
  label : String
  required : Bool
  usedFor : Option String
deriving DecidableEq, Repr

/-- Runtime state of an InputField instance, together with the
caller-owned controlled value and the current `errorObject` prop. -/
structure FieldState where
  isValid : Bool
  errorMessage : String
  value : Option String
  errorObject : Option ErrorObject
  characterCount : Nat
deriving DecidableEq, Repr

/-- User/host events an InputField instance processes after mount. -/
inductive FieldEvent
  | change (v : String)
  | blur
  | setErrorObject (e : Option ErrorObject)
deriving DecidableEq, Repr

/-- Notifier calls emitted while processing one InputField event. -/
structure FieldOut where
  changeCalls : List String
  validationCalls : List Bool
  focusOutCalls : Nat
deriving DecidableEq, Repr

/-- The input `onChange` wrapper of InputField as a function from the
new value to the list of values forwarded to the caller's `onChange`:
for kind `number` the value is tested against the integer-or-decimal
pattern and forwarded in the matching branch (which returns), and
forwarded again after the conditional otherwise. -/
def inputFieldOnChange (t : InputType) (v : String) : List String :=
  if t = InputType.number ∧ numberMatch v = true then [v] else [v]

/-- JS `errorObject?.error`: the dependency of the error-object effect. -/
def errDep (e : Option ErrorObject) : Option Bool :=
  e.map ErrorObject.error

/-- JS `errorObject?.message || ""`. -/
def errMessage (e : Option ErrorObject) : String :=
  (e.map ErrorObject.message).getD ""

/-- Mounting an InputField: state initialised valid/empty-message with
the character count of the initial value; on mount the error-object
effect runs (forcing invalid when the initial object's flag is set) and
the `[isValid]` effect notifies the mount-render validity `true`, then
again the new value when the error-object effect changed it. -/
def mountField (v₀ : Option String) (eo₀ : Option ErrorObject) : FieldState × FieldOut :=
  if errDep eo₀ = some true then
    (⟨false, errMessage eo₀, v₀, eo₀, (v₀.getD "").length⟩, ⟨[], [true, false], 0⟩)
  else
    (⟨true, "", v₀, eo₀, (v₀.getD "").length⟩, ⟨[], [true], 0⟩)

/-- One InputField event. A change forwards through the `onChange`
wrapper (the caller stores the value back) and touches no validation
state. A blur calls the focus-out notifier when `usedFor` is "range",
otherwise runs `validateInput`, which stores its result and notifies
the pre-update (stale closure) `isValid` inline; the `[isValid]` effect
then fires exactly when `isValid` changed, notifying the new value.
Replacing the error object re-runs the error-object effect only when
its dependency `errorObject?.error` changed; a set flag then forces
`isValid` false and adopts the object's message. -/
def stepField (p : FieldProps) (s : FieldState) : FieldEvent → FieldState × FieldOut
  | .change v =>
    (⟨s.isValid, s.errorMessage, some v, s.errorObject, v.length⟩,
     ⟨inputFieldOnChange p.type v, [], 0⟩)
  | .blur =>
    if p.usedFor = some "range" then
      (s, ⟨[], [], 1⟩)
    else
      (⟨(validateInputCompute p.type p.required p.label s.value).1,
        (validateInputCompute p.type p.required p.label s.value).2,
        s.value, s.errorObject, s.characterCount⟩,
       ⟨[], [s.isValid] ++
         (if (validateInputCompute p.type p.required p.label s.value).1 ≠ s.isValid
          then [(validateInputCompute p.type p.required p.label s.value).1] else []), 0⟩)
  | .setErrorObject e =>
    if errDep e ≠ errDep s.errorObject ∧ errDep e = some true then
      (⟨false, errMessage e, s.value, e, s.characterCount⟩,
       ⟨[], if s.isValid then [false] else [], 0⟩)
    else
      (⟨s.isValid, s.errorMessage, s.value, e, s.characterCount⟩, ⟨[], [], 0⟩)

/-- InputField state after mounting on `v₀`, `eo₀` and processing `evs`. -/
def runField (p : FieldProps) (v₀ : Option String) (eo₀ : Option ErrorObject)
    (evs : List FieldEvent) : FieldState :=
  evs.foldl (fun s e => (stepField p s e).1) (mountField v₀ eo₀).1

/-- JSX attribute-object update: set a key to a value, overriding an
existing entry in place or appending a fresh one. -/
def setAttr : List (String × String) → String × String → List (String × String)
  | [], kv => [kv]
  | (k, v) :: rest, kv =>
    if k = kv.1 then (k, kv.2) :: rest else (k, v) :: setAttr rest kv

/-- First-match attribute lookup. -/
def lookupAttr (k : String) : List (String × String) → Option String
  | [] => none
  | (k2, v) :: rest => if k2 = k then some v else lookupAttr k rest

/-- The Button element's attribute object: the object literal starts
with the fixed class and then spreads the caller's props, later
entries overriding earlier ones key by key. -/
def buttonRender (props : List (String × String)) : List (String × String) :=
  props.foldl setAttr [("className", "text-amber-300")]

/-- Helper for `classTokens`: split at spaces, carrying the reversed
current token. -/
def splitTokensAux : List Char → List Char → List String
  | [], acc => [String.mk acc.reverse]
  | ' ' :: t, acc => String.mk acc.reverse :: splitTokensAux t []
  | c :: t, acc => splitTokensAux t (c :: acc)

/-- The class tokens of an HTML class attribute value (split at
spaces). -/
def classTokens (s : String) : List String := splitTokensAux s.toList []

/-- The rule the InputField table assigns to each component kind
(obtained by evaluating the table at the kind's key). -/
def fieldRuleOf : InputType → Option ValidationRule
  | .alphabets => some ⟨alphabetsMatch, "Only Alphabets allowed!"⟩
  | .resource_name => some ⟨resourceNameMatch, "Only Alphabets, numbers and (#, _, -) allowed!"⟩
  | .email => some ⟨emailMatch, "Invalid email format."⟩
  | .password => some ⟨passwordMatch, passwordMessage⟩
  | .passwordVisible => some ⟨passwordMatch, passwordMessage⟩
  | .file => none
  | .number => none

theorem inputFieldRules_toKey (t : InputType) : inputFieldRules t.toKey = fieldRuleOf t := by
  cases t <;> rfl

theorem inputAreaRules_description :
    inputAreaRules "description" =
      some ⟨descriptionMatch, "Only Alphabets, numbers, and (#, _, -, .) allowed!"⟩ := rfl

theorem append_right_ne_empty (s t : String) (h : t ≠ "") : s ++ t ≠ "" := by
  intro hc
  apply h
  cases s with
  | mk l =>
    cases t with
    | mk m =>
      have h2 : l ++ m = [] := congrArg String.data hc
      have hm : m = [] := (List.append_eq_nil.mp h2).2
      simp [hm]

/-- The pair stored by InputArea's `validateInput` has a non-empty
message exactly when its validity component is false. -/
theorem validateAreaCompute_inv (req : Bool) (v : String) :
    ((validateAreaCompute req v).2 ≠ "" ↔ (validateAreaCompute req v).1 = false) := by
  rw [validateAreaCompute, inputAreaRules_description]
  split
  · simp
  · split
    next r heq =>
      injection heq with h3
      subst h3
      split <;> simp
    next heq => exact absurd heq (by simp)

/-- The pair stored by InputField's `validateInput` has a non-empty
message exactly when its validity component is false. -/
theorem validateInputCompute_inv (t : InputType) (req : Bool) (label : String) (v : Option String) :
    ((validateInputCompute t req label v).2 ≠ "" ↔ (validateInputCompute t req label v).1 = false) := by
  rw [validateInputCompute, inputFieldRules_toKey]
  split
  · simpa using append_right_ne_empty label " is required." (by decide)
  · cases t <;> dsimp only [fieldRuleOf] <;> (try split) <;> simp [passwordMessage]

/-- The spec's error-display invariant, for an InputArea state. -/
def areaInv (s : AreaState) : Prop := s.errorMessage ≠ "" ↔ s.isValid = false

/-- The spec's error-display invariant, for an InputField state. -/
def fieldInv (s : FieldState) : Prop := s.errorMessage ≠ "" ↔ s.isValid = false

/-- An error object is benign for the invariant when a set flag comes
with a non-empty message. -/
def goodErrObj : Option ErrorObject → Prop
  | some eo => eo.error = true → eo.message ≠ ""
  | none => True

/-- An InputField event is benign for the invariant when any error
object it installs is benign. -/
def goodFieldEvent : FieldEvent → Prop
  | .setErrorObject e => goodErrObj e
  | _ => True

theorem mountArea_inv (v₀ : String) : areaInv (mountArea v₀).1 := by
  simp [mountArea, areaInv]

theorem stepArea_inv (p : AreaProps) (s : AreaState) (e : AreaEvent) :
    areaInv (stepArea p s e).1 := by
  cases e with
  | change v => simpa [stepArea, areaInv] using validateAreaCompute_inv p.required v
  | blur => simpa [stepArea, areaInv] using validateAreaCompute_inv p.required s.value

theorem foldlArea_inv (p : AreaProps) (evs : List AreaEvent) (s : AreaState)
    (h : areaInv s) : areaInv (evs.foldl (fun s e => (stepArea p s e).1) s) := by
  induction evs generalizing s with
  | nil => exact h
  | cons e t ih => exact ih ((stepArea p s e).1) (stepArea_inv p s e)

theorem runArea_inv (p : AreaProps) (v₀ : String) (evs : List AreaEvent) :
    areaInv (runArea p v₀ evs) :=
  foldlArea_inv p evs (mountArea v₀).1 (mountArea_inv v₀)

theorem mountField_inv (v₀ : Option String) (eo₀ : Option ErrorObject)
    (hg : goodErrObj eo₀) : fieldInv (mountField v₀ eo₀).1 := by
  rw [mountField]
  split
  · next hdep =>
    cases eo₀ with
    | none => simp [errDep] at hdep
    | some o =>
      have herr : o.error = true := by simpa [errDep] using hdep
      have hmsg : o.message ≠ "" := hg herr
      simpa [fieldInv, errMessage] using hmsg
  · simp [fieldInv]

theorem stepField_inv (p : FieldProps) (s : FieldState) (e : FieldEvent)
    (hs : fieldInv s) (hg : goodFieldEvent e) : fieldInv (stepField p s e).1 := by
  cases e with
  | change v => simpa [stepField, fieldInv] using hs
  | blur =>
    rw [stepField]
    split
    · exact hs
    · simpa [fieldInv] using
        validateInputCompute_inv p.type p.required p.label s.value
  | setErrorObject eo =>
    rw [stepField]
    split
    · next hcond =>
      cases eo with
      | none => simp [errDep] at hcond
      | some o =>
        have herr : o.error = true := by
          have := hcond.2
          simpa [errDep] using this
        have hmsg : o.message ≠ "" := hg herr
        simpa [fieldInv, errMessage] using hmsg
    · simpa [fieldInv] using hs

theorem foldlField_inv (p : FieldProps) (evs : List FieldEvent) (s : FieldState)
    (hs : fieldInv s) (hg : ∀ e ∈ evs, goodFieldEvent e) :
    fieldInv (evs.foldl (fun s e => (stepField p s e).1) s) := by
  induction evs generalizing s with
  | nil => exact hs
  | cons e t ih =>
    exact ih ((stepField p s e).1)
      (stepField_inv p s e hs (hg e (List.mem_cons_self e t)))
      (fun e2 he2 => hg e2 (List.mem_cons_of_mem e he2))

theorem runField_inv (p : FieldProps) (v₀ : Option String) (eo₀ : Option ErrorObject)
    (evs : List FieldEvent) (hg0 : goodErrObj eo₀) (hg : ∀ e ∈ evs, goodFieldEvent e) :
    fieldInv (runField p v₀ eo₀ evs) :=
  foldlField_inv p evs (mountField v₀ eo₀).1 (mountField_inv v₀ eo₀ hg0) hg

theorem string_length_ne_zero (v : String) (h : v ≠ "") : v.length ≠ 0 := by
  cases v with
  | mk l =>
    intro hc
    apply h
    have hl : l = [] := List.length_eq_zero.mp hc
    simp [hl]

/-- C1 (amended): in every state of TextAreaField reachable by mount
followed by change and focus-loss events, `errorMessage` is non-empty
exactly when `isValid` is false; the same holds for TextInputField
under change, focus-loss and external-error events provided every
external error object whose flag is set carries a non-empty message.
(Without that proviso the invariant fails: an external error with flag
set and empty message leaves `errorMessage` empty with `isValid`
false.) -/
theorem c1_errorMessage_invariant_amended :
    (∀ (p : AreaProps) (v₀ : String) (evs : List AreaEvent),
      ((runArea p v₀ evs).errorMessage ≠ "" ↔ (runArea p v₀ evs).isValid = false)) ∧
    (∀ (p : FieldProps) (v₀ : Option String) (eo₀ : Option ErrorObject)
      (evs : List FieldEvent), goodErrObj eo₀ → (∀ e ∈ evs, goodFieldEvent e) →
      ((runField p v₀ eo₀ evs).errorMessage ≠ "" ↔ (runField p v₀ eo₀ evs).isValid = false)) :=
  ⟨fun p v₀ evs => runArea_inv p v₀ evs,
   fun p v₀ eo₀ evs hg0 hg => runField_inv p v₀ eo₀ evs hg0 hg⟩

/-- C1 counterexample: the claim as stated fails on TextInputField —
after mount, a single external-error event whose flag is set but whose
message is empty leaves a reachable state with `isValid = false` and
`errorMessage = ""`. -/
theorem c1_errorMessage_invariant_counterexample :
    (runField ⟨InputType.email, "Email", false, none⟩ (some "x") none
      [FieldEvent.setErrorObject (some ⟨true, ""⟩)]).isValid = false ∧
    (runField ⟨InputType.email, "Email", false, none⟩ (some "x") none
      [FieldEvent.setErrorObject (some ⟨true, ""⟩)]).errorMessage = "" := by
  constructor <;> rfl

/-- C1 witness: the amended invariant evaluated on a concrete
TextAreaField blur trace and a concrete TextInputField blur trace. -/
theorem c1_errorMessage_invariant_witness :
    ((runArea ⟨true⟩ "hi" [AreaEvent.blur]).errorMessage ≠ "" ↔
      (runArea ⟨true⟩ "hi" [AreaEvent.blur]).isValid = false) ∧
    ((runField ⟨InputType.email, "Email", true, none⟩ (some "") none
        [FieldEvent.blur]).errorMessage ≠ "" ↔
      (runField ⟨InputType.email, "Email", true, none⟩ (some "") none
        [FieldEvent.blur]).isValid = false) :=
  ⟨c1_errorMessage_invariant_amended.1 ⟨true⟩ "hi" [AreaEvent.blur],
   c1_errorMessage_invariant_amended.2 ⟨InputType.email, "Email", true, none⟩ (some "") none
     [FieldEvent.blur] trivial
     (by
       intro e he
       simp only [List.mem_singleton] at he
       subst he
       trivial)⟩

/-- C2 (amended): for every TextInputField kind with a rule and for
the TextAreaField `description` kind, a value matching the kind's
regex validates to `(true, "")` provided the required check does not
preempt it (required is false or the trimmed value is non-empty), and
a value whose trimmed form is non-empty that does not match validates
to `(false, message)` with exactly the kind's fixed message. (The
claim without those provisos fails: an all-whitespace value triggers
the required branch even when it matches the regex, and TextAreaField
accepts a non-empty all-whitespace non-matching value.) -/
theorem c2_rule_validation_amended :
    ∀ (t : InputType) (r : ValidationRule) (req : Bool) (label : String) (v : String),
      inputFieldRules t.toKey = some r →
      ((req = false ∨ jsTrim v ≠ "") → r.test v = true →
        validateInputCompute t req label (some v) = (true, "")) ∧
      (jsTrim v ≠ "" → r.test v = false →
        validateInputCompute t req label (some v) = (false, r.message)) ∧
      ((req = false ∨ jsTrim v ≠ "") → descriptionMatch v = true →
        validateAreaCompute req v = (true, "")) ∧
      (jsTrim v ≠ "" → descriptionMatch v = false →
        validateAreaCompute req v = (false, "Only Alphabets, numbers, and (#, _, -, .) allowed!")) := by
  intro t r req label v hr
  refine ⟨?_, ?_, ?_, ?_⟩
  · intro hreq htest
    rw [validateInputCompute, hr]
    have h1 : (valueTrimEmpty (some v) && req) = false := by
      cases hreq with
      | inl h => subst h; simp
      | inr h => simp [valueTrimEmpty, h]
    simp [h1, htest]
  · intro htrim htest
    have hv : v ≠ "" := fun h => htrim (by simp [h]; rfl)
    rw [validateInputCompute, hr]
    simp [valueTrimEmpty, valueHasLength, htrim, htest, string_length_ne_zero v hv]
  · intro hreq htest
    rw [validateAreaCompute, inputAreaRules_description]
    have h1 : ((jsTrim v == "") && req) = false := by
      cases hreq with
      | inl h => subst h; simp
      | inr h => simp [h]
    simp [h1, htest]
  · intro htrim htest
    rw [validateAreaCompute, inputAreaRules_description]
    simp [htrim, htest]

/-- C2 counterexample: the claim as stated fails — the all-whitespace
value made of one space matches the `description` regex yet validates
to the required-field failure when required is true, and the non-empty
tab value does not match the regex yet validates to `(true, "")` on
TextAreaField when required is false. -/
theorem c2_rule_validation_counterexample :
    descriptionMatch " " = true ∧
    validateAreaCompute true " " = (false, "Field is required.") ∧
    "\t" ≠ "" ∧ descriptionMatch "\t" = false ∧
    validateAreaCompute false "\t" = (true, "") :=
  ⟨rfl, rfl, by decide, rfl, rfl⟩

/-- C2 witness: the amended statement evaluated at the spec's email
and password examples. -/
theorem c2_rule_validation_witness :
    validateInputCompute InputType.email false "Email" (some "a@b.com") = (true, "") ∧
    validateInputCompute InputType.email false "Email" (some "a@b") =
      (false, "Invalid email format.") ∧
    validateInputCompute InputType.password false "Pw" (some "Abcdefg1!@") = (true, "") ∧
    validateInputCompute InputType.password false "Pw" (some "abcdefgh1") =
      (false, passwordMessage) :=
  ⟨(c2_rule_validation_amended InputType.email ⟨emailMatch, "Invalid email format."⟩
      false "Email" "a@b.com" rfl).1 (Or.inl rfl) (by decide),
   (c2_rule_validation_amended InputType.email ⟨emailMatch, "Invalid email format."⟩
      false "Email" "a@b" rfl).2.1 (by decide) (by decide),
   (c2_rule_validation_amended InputType.password ⟨passwordMatch, passwordMessage⟩
      false "Pw" "Abcdefg1!@" rfl).1 (Or.inl rfl) (by decide),
   (c2_rule_validation_amended InputType.password ⟨passwordMatch, passwordMessage⟩
      false "Pw" "abcdefgh1" rfl).2.1 (by decide) (by decide)⟩

/-- C3: on a TextAreaField change event, an empty new value is always
forwarded to the caller's change notifier; a non-empty new value is
forwarded exactly when it passes validation, and a non-empty failing
value is never forwarded. -/
theorem c3_area_change_gate :
    ∀ (p : AreaProps) (s : AreaState) (v : String),
      (v = "" → v ∈ (stepArea p s (.change v)).2.changeCalls) ∧
      (v ≠ "" → ((stepArea p s (.change v)).2.changeCalls ≠ [] ↔
        (validateAreaCompute p.required v).1 = true)) ∧
      (v ≠ "" → (validateAreaCompute p.required v).1 = false →
        (stepArea p s (.change v)).2.changeCalls = []) := by
  intro p s v
  refine ⟨?_, ?_, ?_⟩
  · intro h
    subst h
    simp [stepArea]
  · intro h
    cases hres : (validateAreaCompute p.required v).1 <;> simp [stepArea, h, hres]
  · intro h hres
    simp [stepArea, h, hres]

/-- C3 witness: a concrete empty change is forwarded and a concrete
failing non-empty change is not. -/
theorem c3_area_change_gate_witness :
    ("" ∈ (stepArea ⟨true⟩ (mountArea "z").1 (.change "")).2.changeCalls) ∧
    (stepArea ⟨false⟩ (mountArea "z").1 (.change "ab!")).2.changeCalls = [] :=
  ⟨(c3_area_change_gate ⟨true⟩ (mountArea "z").1 "").1 rfl,
   (c3_area_change_gate ⟨false⟩ (mountArea "z").1 "ab!").2.2 (by decide) (by decide)⟩

/-- C7: for every kind of either component, a value whose trimmed form
is empty with required set validates to the required-field failure —
message "Field is required." on TextAreaField and the label
interpolation on TextInputField — regardless of the kind's regex,
showing the required check runs first. -/
theorem c7_required_precedence :
    ∀ (t : InputType) (label : String) (vA : String) (vI : Option String),
      jsTrim vA = "" → valueTrimEmpty vI = true →
      validateAreaCompute true vA = (false, "Field is required.") ∧
      validateInputCompute t true label vI = (false, label ++ " is required.") := by
  intro t label vA vI hA hI
  constructor
  · rw [validateAreaCompute]
    simp [hA]
  · rw [validateInputCompute]
    simp [hI]

/-- C7 witness: evaluated at a one-space value, which matches the
`description` regex yet still takes the required branch. -/
theorem c7_required_precedence_witness :
    validateAreaCompute true " " = (false, "Field is required.") ∧
    validateInputCompute InputType.email true "Email" (some " ") =
      (false, "Email is required.") :=
  c7_required_precedence InputType.email "Email" " " (some " ") (by decide) (by decide)

/-- C10: a TextAreaField change event with empty new value invokes the
change notifier exactly twice when required is false and exactly once
when required is true. -/
theorem c10_area_empty_change_counts :
    ∀ s : AreaState,
      (stepArea ⟨false⟩ s (.change "")).2.changeCalls.length = 2 ∧
      (stepArea ⟨true⟩ s (.change "")).2.changeCalls.length = 1 :=
  fun _ => ⟨rfl, rfl⟩

/-- C4 (amended): replacing the external error object applies the
force-invalid override only when its dependency `errorObject?.error`
changed: a change to a flag-set object from a state whose flag was not
set forces `isValid = false` with the object's message; any change to
an object whose flag is not set (in particular resetting the flag to
false) leaves `isValid` and `errorMessage` unchanged; and a change to
a flag-set object while the previous flag was already set is ignored,
so a new message is not adopted. (The claim as stated fails on the
last case.) -/
theorem c4_external_error_amended :
    ∀ (p : FieldProps) (s : FieldState) (m : String),
      (errDep s.errorObject ≠ some true →
        (stepField p s (.setErrorObject (some ⟨true, m⟩))).1.isValid = false ∧
        (stepField p s (.setErrorObject (some ⟨true, m⟩))).1.errorMessage = m) ∧
      (∀ e : Option ErrorObject, errDep e ≠ some true →
        (stepField p s (.setErrorObject e)).1.isValid = s.isValid ∧
        (stepField p s (.setErrorObject e)).1.errorMessage = s.errorMessage) ∧
      (errDep s.errorObject = some true →
        (stepField p s (.setErrorObject (some ⟨true, m⟩))).1.isValid = s.isValid ∧
        (stepField p s (.setErrorObject (some ⟨true, m⟩))).1.errorMessage = s.errorMessage) := by
  intro p s m
  refine ⟨?_, ?_, ?_⟩
  · intro hne
    rw [stepField]
    split
    · exact ⟨rfl, rfl⟩
    · next hcond => exact absurd (And.intro (Ne.symm hne) rfl) hcond
  · intro e he
    rw [stepField]
    split
    · next hcond => exact absurd hcond.2 he
    · exact ⟨rfl, rfl⟩
  · intro hdep
    rw [stepField]
    split
    · next hcond => exact absurd hdep.symm hcond.1
    · exact ⟨rfl, rfl⟩

/-- C4 counterexample: the claim as stated fails — after an external
error with flag set and message "A", changing the external error
object to flag set with message "B" leaves `errorMessage = "A"` (the
effect keys on the flag only), not "B". -/
theorem c4_external_error_counterexample :
    (runField ⟨InputType.email, "Email", false, none⟩ (some "x") none
      [FieldEvent.setErrorObject (some ⟨true, "A"⟩),
       FieldEvent.setErrorObject (some ⟨true, "B"⟩)]).errorMessage = "A" ∧
    (runField ⟨InputType.email, "Email", false, none⟩ (some "x") none
      [FieldEvent.setErrorObject (some ⟨true, "A"⟩),
       FieldEvent.setErrorObject (some ⟨true, "B"⟩)]).isValid = false ∧
    ("A" : String) ≠ "B" := by
  refine ⟨rfl, rfl, by decide⟩

/-- C4 witness: the amended statement evaluated on a concrete state —
a fresh flag-set object with message "X" forces the error state, a
flag-false object leaves a state unchanged, and a message change with
the flag already set is ignored. -/
theorem c4_external_error_witness :
    ((stepField ⟨InputType.email, "Email", false, none⟩
        ⟨true, "", some "x", none, 1⟩
        (.setErrorObject (some ⟨true, "X"⟩))).1.isValid = false ∧
      (stepField ⟨InputType.email, "Email", false, none⟩
        ⟨true, "", some "x", none, 1⟩
        (.setErrorObject (some ⟨true, "X"⟩))).1.errorMessage = "X") ∧
    ((stepField ⟨InputType.email, "Email", false, none⟩
        ⟨false, "X", some "x", some ⟨true, "X"⟩, 1⟩
        (.setErrorObject (some ⟨false, "X"⟩))).1.isValid = false ∧
      (stepField ⟨InputType.email, "Email", false, none⟩
        ⟨false, "X", some "x", some ⟨true, "X"⟩, 1⟩
        (.setErrorObject (some ⟨false, "X"⟩))).1.errorMessage = "X") ∧
    ((stepField ⟨InputType.email, "Email", false, none⟩
        ⟨false, "X", some "x", some ⟨true, "X"⟩, 1⟩
        (.setErrorObject (some ⟨true, "Y"⟩))).1.isValid = false ∧
      (stepField ⟨InputType.email, "Email", false, none⟩
        ⟨false, "X", some "x", some ⟨true, "X"⟩, 1⟩
        (.setErrorObject (some ⟨true, "Y"⟩))).1.errorMessage = "X") :=
  ⟨(c4_external_error_amended ⟨InputType.email, "Email", false, none⟩
      ⟨true, "", some "x", none, 1⟩ "X").1 (by decide),
   (c4_external_error_amended ⟨InputType.email, "Email", false, none⟩
      ⟨false, "X", some "x", some ⟨true, "X"⟩, 1⟩ "X").2.1
      (some ⟨false, "X"⟩) (by decide),
   (c4_external_error_amended ⟨InputType.email, "Email", false, none⟩
      ⟨false, "X", some "x", some ⟨true, "X"⟩, 1⟩ "Y").2.2 (by decide)⟩

/-- C5: a focus-loss event with `usedFor` different from "range", on a
value that satisfies the required check and the kind's rule (local
validation computes valid), sets `isValid = true` and clears
`errorMessage` even while the external error object's flag is still
true: blur validation overwrites the external override. -/
theorem c5_blur_overrides_external :
    ∀ (p : FieldProps) (s : FieldState) (m : String),
      s.errorObject = some ⟨true, m⟩ →
      p.usedFor ≠ some "range" →
      validateInputCompute p.type p.required p.label s.value = (true, "") →
      (stepField p s .blur).1.isValid = true ∧
      (stepField p s .blur).1.errorMessage = "" := by
  intro p s m heo hrange hval
  rw [stepField]
  split
  · next h => exact absurd h hrange
  · simp [hval]

/-- C5 witness: evaluated on a field forced invalid by an external
error whose flag is still set, blurring on a rule-satisfying value. -/
theorem c5_blur_overrides_external_witness :
    (stepField ⟨InputType.email, "Email", true, none⟩
      ⟨false, "X", some "a@b.com", some ⟨true, "X"⟩, 7⟩ .blur).1.isValid = true ∧
    (stepField ⟨InputType.email, "Email", true, none⟩
      ⟨false, "X", some "a@b.com", some ⟨true, "X"⟩, 7⟩ .blur).1.errorMessage = "" :=
  c5_blur_overrides_external ⟨InputType.email, "Email", true, none⟩
    ⟨false, "X", some "a@b.com", some ⟨true, "X"⟩, 7⟩ "X" rfl (by decide) (by decide)

/-- The change handling the spec ascribes to kind `number`: every
change is forwarded to the caller's change notifier exactly once,
unconditionally (the comparator definition for the refinement claim,
following the spec's words). -/
def unconditionalForwardSpec (v : String) : List String := [v]

/-- C6: the TextInputField change handler is extensionally equal to
the unconditional single forward for every kind and value — the
integer-or-decimal pattern test appears in the handler but both its
branches forward the change, so it gates nothing. -/
theorem c6_number_change_no_gate :
    ∀ (t : InputType) (v : String),
      inputFieldOnChange t v = unconditionalForwardSpec v := by
  intro t v
  rw [inputFieldOnChange, unconditionalForwardSpec]
  split <;> rfl

/-- C8 (amended): on mount each component notifies the validation
notifier exactly once with the initial value true (for TextInputField,
when no flag-set error object is mounted); whenever an event changes
`isValid`, the new value is reported. On TextAreaField every
notification an event emits carries the post-event validity. On
TextInputField, however, a blur validation run first notifies the
pre-run (stale) validity and only then, through the effect, the new
value — so a flipping run also reports the previous value, against
the claim's "not the previous one". -/
theorem c8_validation_notifier_amended :
    (∀ v₀ : String, (mountArea v₀).2.validationCalls = [true]) ∧
    (∀ (p : AreaProps) (s : AreaState) (e : AreaEvent),
      ((stepArea p s e).2.validationCalls.all
        (fun b => b = (stepArea p s e).1.isValid)) = true) ∧
    (∀ (p : AreaProps) (s : AreaState) (e : AreaEvent),
      (stepArea p s e).1.isValid ≠ s.isValid →
      (stepArea p s e).1.isValid ∈ (stepArea p s e).2.validationCalls) ∧
    (∀ v₀ : Option String, (mountField v₀ none).2.validationCalls = [true]) ∧
    (∀ (p : FieldProps) (s : FieldState), p.usedFor ≠ some "range" →
      (stepField p s .blur).2.validationCalls =
        s.isValid :: (if (validateInputCompute p.type p.required p.label s.value).1 ≠ s.isValid
          then [(validateInputCompute p.type p.required p.label s.value).1] else [])) ∧
    (∀ (p : FieldProps) (s : FieldState) (e : FieldEvent),
      (stepField p s e).1.isValid ≠ s.isValid →
      (stepField p s e).1.isValid ∈ (stepField p s e).2.validationCalls) := by
  refine ⟨fun _ => rfl, ?_, ?_, fun _ => rfl, ?_, ?_⟩
  · intro p s e
    cases e <;> simp [stepArea]
  · intro p s e h
    cases e <;> simp [stepArea] at h ⊢
  · intro p s h
    rw [stepField]
    split
    · next hr => exact absurd hr h
    · rfl
  · intro p s e h
    cases e with
    | change v => exact absurd rfl h
    | blur =>
      rw [stepField] at h ⊢
      by_cases hr : p.usedFor = some "range"
      · rw [if_pos hr] at h
        exact absurd rfl h
      · rw [if_neg hr] at h ⊢
        have h2 : (validateInputCompute p.type p.required p.label s.value).1 ≠ s.isValid := h
        simp [h2]
    | setErrorObject eo =>
      rw [stepField] at h ⊢
      split at h
      · next hcond =>
        rw [if_pos hcond]
        have hv : s.isValid = true := by
          cases hval : s.isValid
          · exact absurd hval.symm h
          · rfl
        simp [hv]
      · exact absurd rfl h

/-- C8 counterexample: the claim as stated fails on TextInputField — a
blur validation run that flips `isValid` from true to false notifies
the stale previous value true before the effect notifies false, so
the notifier receives the previous value. -/
theorem c8_validation_notifier_counterexample :
    (stepField ⟨InputType.email, "Email", true, none⟩
      (mountField (some "") none).1 .blur).2.validationCalls = [true, false] ∧
    (stepField ⟨InputType.email, "Email", true, none⟩
      (mountField (some "") none).1 .blur).1.isValid = false := by
  exact ⟨rfl, rfl⟩

/-- C8 witness: the amended statement evaluated on a concrete mount
and a concrete flipping blur run of each component. -/
theorem c8_validation_notifier_witness :
    (mountArea "v").2.validationCalls = [true] ∧
    ((stepArea ⟨true⟩ (mountArea "").1 .blur).2.validationCalls.all
      (fun b => b = (stepArea ⟨true⟩ (mountArea "").1 .blur).1.isValid)) = true ∧
    (mountField (some "v") none).2.validationCalls = [true] ∧
    (stepField ⟨InputType.alphabets, "Name", true, none⟩
      (mountField (some "") none).1 .blur).2.validationCalls =
        true :: (if (validateInputCompute InputType.alphabets true "Name" (some "")).1 ≠ true
          then [(validateInputCompute InputType.alphabets true "Name" (some "")).1] else []) :=
  ⟨c8_validation_notifier_amended.1 "v",
   c8_validation_notifier_amended.2.1 ⟨true⟩ (mountArea "").1 .blur,
   c8_validation_notifier_amended.2.2.2.1 (some "v"),
   c8_validation_notifier_amended.2.2.2.2.1 ⟨InputType.alphabets, "Name", true, none⟩
     (mountField (some "") none).1 (by decide)⟩

theorem lookupAttr_setAttr_self (l : List (String × String)) (k v : String) :
    lookupAttr k (setAttr l (k, v)) = some v := by
  induction l with
  | nil => simp [setAttr, lookupAttr]
  | cons kv rest ih =>
    obtain ⟨k2, v2⟩ := kv
    rw [setAttr]
    split
    · next h => simp [lookupAttr, h]
    · next h => simp [lookupAttr, h, ih]

theorem lookupAttr_setAttr_ne (l : List (String × String)) (k k2 v2 : String)
    (h : k2 ≠ k) : lookupAttr k (setAttr l (k2, v2)) = lookupAttr k l := by
  induction l with
  | nil => simp [setAttr, lookupAttr, h]
  | cons kv rest ih =>
    obtain ⟨k1, v1⟩ := kv
    rw [setAttr]
    split
    · next he =>
      subst he
      simp [lookupAttr, h]
    · next he => simp [lookupAttr, ih]

theorem lookupAttr_eq_none (k : String) (l : List (String × String))
    (h : k ∉ l.map Prod.fst) : lookupAttr k l = none := by
  induction l with
  | nil => rfl
  | cons kv rest ih =>
    obtain ⟨k1, v1⟩ := kv
    simp only [List.map_cons, List.mem_cons] at h
    push_neg at h
    rw [lookupAttr, if_neg (fun he => h.1 he.symm)]
    exact ih h.2

theorem lookupAttr_foldl_setAttr (ps : List (String × String)) :
    ∀ (acc : List (String × String)) (k : String), (ps.map Prod.fst).Nodup →
      lookupAttr k (ps.foldl setAttr acc) =
        (match lookupAttr k ps with
         | some v => some v
         | none => lookupAttr k acc) := by
  induction ps with
  | nil =>
    intro acc k _
    rfl
  | cons kv t ih =>
    obtain ⟨k1, v1⟩ := kv
    intro acc k hnd
    have hnd2 : (t.map Prod.fst).Nodup := (List.nodup_cons.mp hnd).2
    have hk1 : k1 ∉ t.map Prod.fst := (List.nodup_cons.mp hnd).1
    rw [List.foldl_cons, ih (setAttr acc (k1, v1)) k hnd2]
    by_cases hk : k1 = k
    · subst hk
      have ht : lookupAttr k1 t = none := lookupAttr_eq_none k1 t hk1
      rw [ht]
      simp [lookupAttr, lookupAttr_setAttr_self]
    · rw [lookupAttr_setAttr_ne acc k k1 v1 hk]
      simp [lookupAttr, hk]

/-- C9 (amended): Button forwards every caller-supplied attribute
verbatim (assuming distinct attribute names, as a JSX props object
has); the fixed visual class is present exactly when the caller
supplies no class attribute of their own — a caller-supplied class
attribute replaces the fixed class entirely, because the caller's
props are spread after it. (The claim that the fixed class
accompanies a caller-supplied class fails.) -/
theorem c9_button_forwarding_amended :
    ∀ props : List (String × String), (props.map Prod.fst).Nodup →
      (lookupAttr "className" props = none →
        lookupAttr "className" (buttonRender props) = some "text-amber-300") ∧
      (∀ cv, lookupAttr "className" props = some cv →
        lookupAttr "className" (buttonRender props) = some cv) ∧
      (∀ k, k ≠ "className" → lookupAttr k (buttonRender props) = lookupAttr k props) := by
  intro props hnd
  refine ⟨?_, ?_, ?_⟩
  · intro h
    rw [buttonRender, lookupAttr_foldl_setAttr props _ _ hnd, h]
    rfl
  · intro cv h
    rw [buttonRender, lookupAttr_foldl_setAttr props _ _ hnd, h]
  · intro k hk
    rw [buttonRender, lookupAttr_foldl_setAttr props _ _ hnd]
    cases hLk : lookupAttr k props with
    | none => simp [lookupAttr, Ne.symm hk]
    | some v => rfl

/-- C9 counterexample: the claim as stated fails — with a
caller-supplied class attribute "btn", the rendered class attribute is
exactly "btn" and the fixed class "text-amber-300" is not among its
class tokens. -/
theorem c9_button_forwarding_counterexample :
    lookupAttr "className" (buttonRender [("className", "btn")]) = some "btn" ∧
    ("text-amber-300" ∈ classTokens "btn" → False) := by
  exact ⟨rfl, by decide⟩

/-- C9 witness: the amended statement evaluated on a concrete props
list without a class attribute: the fixed class appears and the other
attribute is forwarded unchanged. -/
theorem c9_button_forwarding_witness :
    lookupAttr "className" (buttonRender [("id", "x")]) = some "text-amber-300" ∧
    lookupAttr "id" (buttonRender [("id", "x")]) = some "x" :=
  ⟨(c9_button_forwarding_amended [("id", "x")] (by simp)).1 rfl,
   ((c9_button_forwarding_amended [("id", "x")] (by simp)).2.2 "id" (by decide)).trans rfl⟩

end ArchersUI
